import Mathlib

/-!
# Enhanced-Calculator: shallow embedding and verification

A shallow embedding of the calculator core (`app/operations.py`, `app/calculation.py`,
`app/calculator_memento.py`, `app/history.py`, `app/calculator.py`) of the
Enhanced-Calculator-Project repository, together with proofs about its behaviour.

Modelling conventions:
* Python `float` values are idealised as real numbers (`ℝ`): exact arithmetic,
  no rounding, no overflow, no IEEE special values.
* Python exceptions raised by the core are values of `PyErr`; the two kinds that
  occur are `ValueError` (raised explicitly by the source) and `ZeroDivisionError`
  (raised by the Python runtime from `/`, `//`, `%`, `**` on a zero denominator or
  `0.0 ** negative`).
* Mutation is explicit state passing: each method that mutates `self` returns the
  updated structure.  An exception propagating out of a method is an `Except.error`
  result paired with the state as it was at the raise point.
* Python list `append`/`pop` act at the end of the list, so stacks are kept in
  Python order: the top of a stack is the *last* element.
-/

/-- Python's `str.lower()`, character by character (every name involved is
ASCII, where this agrees with Python). -/
def pyLower (s : String) : String := String.mk (s.data.map Char.toLower)

/-- The Python exception kinds raised by the calculator core:
`ValueError msg` for every explicit `raise ValueError(...)` in the source, and
`ZeroDivisionError msg` for the runtime's division-by-zero family. -/
inductive PyErr where
  | valueError (msg : String)
  | zeroDivisionError (msg : String)
deriving DecidableEq, Repr

/-- The exception class name, what distinguishes error kinds (messages aside). -/
def PyErr.kindName : PyErr → String
  | .valueError _ => "ValueError"
  | .zeroDivisionError _ => "ZeroDivisionError"

/-- Python's `a % b` on floats for `b ≠ 0`: the remainder with the sign of the
divisor, `a - b * ⌊a / b⌋`. -/
noncomputable def fmod (a b : ℝ) : ℝ := a - b * ⌊a / b⌋

/-- Python's float true division `a / b`: raises `ZeroDivisionError` on `b == 0`. -/
noncomputable def pyDiv (a b : ℝ) : Except PyErr ℝ :=
  if b = 0 then .error (.zeroDivisionError "float division by zero")
  else .ok (a / b)

/-- Python's float floor division `a // b`: raises `ZeroDivisionError` on `b == 0`,
otherwise returns `⌊a / b⌋` (as a float). -/
noncomputable def pyFloorDiv (a b : ℝ) : Except PyErr ℝ :=
  if b = 0 then .error (.zeroDivisionError "float floor division by zero")
  else .ok ((⌊a / b⌋ : ℤ) : ℝ)

/-- Python's float power `a ** b`: raises `ZeroDivisionError` when `a == 0` and
`b < 0`; otherwise yields a value.  When Python returns a float (`a > 0`, or
`a = 0 ≤ b`, or `a < 0` with integer `b`) that value is `Real.rpow a b`; when
`a < 0` and `b` is not an integer, Python returns a complex number whose real
part is `Real.rpow a b`, which is the value used here. -/
noncomputable def pyPow (a b : ℝ) : Except PyErr ℝ :=
  if a = 0 ∧ b < 0 then .error (.zeroDivisionError "0.0 cannot be raised to a negative power")
  else .ok (a ^ b)

/-- The ten operation classes of `app/operations.py`, as a tagged variant
(one tag per subclass of `Operation`). -/
inductive Operation where
  | Add | Subtract | Multiply | Divide | Power
  | Root | Modulus | IntegerDivide | Percentage | AbsoluteDifference
deriving DecidableEq, Repr

/-- The `calculate` method of each operation class, translated clause by clause
from `app/operations.py`:
* `Add`: `return a+b`
* `Subtract`: `return a-b`
* `Multiply`: `return a*b`
* `Divide`: `if b == 0: raise ValueError("Cannot divide by zero."); return a/b`
* `Power`: `return a**b`
* `Root`: `if a < 0 and b%2 ==0: raise ValueError(...); return a ** (1/b)`
  (the `1/b` and `**` carry Python's own failure modes, via `pyDiv` and `pyPow`)
* `Modulus`: `if b ==0: raise ValueError("Cannot perform modulus with zero."); return a%b`
* `IntegerDivide`: `return a // b` (no zero check in the source)
* `Percentage`: `return (a/b) * 100` (no zero check in the source)
* `AbsoluteDifference`: `return abs(a-b)` -/
noncomputable def Operation.calculate : Operation → ℝ → ℝ → Except PyErr ℝ
  | .Add, a, b => .ok (a + b)
  | .Subtract, a, b => .ok (a - b)
  | .Multiply, a, b => .ok (a * b)
  | .Divide, a, b =>
      if b = 0 then .error (.valueError "Cannot divide by zero.")
      else .ok (a / b)
  | .Power, a, b => pyPow a b
  | .Root, a, b =>
      if a < 0 ∧ fmod b 2 = 0 then
        .error (.valueError "Cannot take an even root of a negative number.")
      else (pyDiv 1 b).bind (fun e => pyPow a e)
  | .Modulus, a, b =>
      if b = 0 then .error (.valueError "Cannot perform modulus with zero.")
      else .ok (fmod a b)
  | .IntegerDivide, a, b => pyFloorDiv a b
  | .Percentage, a, b => (pyDiv a b).map (fun q => q * 100)
  | .AbsoluteDifference, a, b => .ok |a - b|

/-- `self.operation.__class__.__name__`: the Python class name of the operation. -/
def Operation.className : Operation → String
  | .Add => "Add"
  | .Subtract => "Subtract"
  | .Multiply => "Multiply"
  | .Divide => "Divide"
  | .Power => "Power"
  | .Root => "Root"
  | .Modulus => "Modulus"
  | .IntegerDivide => "IntegerDivide"
  | .Percentage => "Percentage"
  | .AbsoluteDifference => "AbsoluteDifference"

namespace OperationFactory

/-- `OperationFactory._operations`: the registry mapping operation names to
operation classes, in source order. -/
def _operations : List (String × Operation) :=
  [("add", .Add), ("subtract", .Subtract), ("multiply", .Multiply),
   ("divide", .Divide), ("power", .Power), ("root", .Root),
   ("modulus", .Modulus), ("int_divide", .IntegerDivide),
   ("percent", .Percentage), ("abs_diff", .AbsoluteDifference)]

/-- `OperationFactory.create_operation`: look up `operation_name.lower()` in the
registry; raise `ValueError(f"Unknown operation: {operation_name}")` if absent. -/
def create_operation (operation_name : String) : Except PyErr Operation :=
  match _operations.lookup (pyLower operation_name) with
  | some op => .ok op
  | none => .error (.valueError ("Unknown operation: " ++ operation_name))

end OperationFactory

/-- `app/calculation.py`: the immutable record of one successful calculation. -/
structure Calculation where
  a : ℝ
  b : ℝ
  operation : Operation
  result : ℝ

/-- `Calculation.__str__`: `f"{self.a} {op_name} {self.b} = {self.result}"` with
`op_name = self.operation.__class__.__name__.lower()`.  Python's float-to-string
formatting is outside the numeric idealisation, so the rendering of a single
float is a parameter `fmt`. -/
def Calculation.toStr (fmt : ℝ → String) (c : Calculation) : String :=
  fmt c.a ++ " " ++ pyLower c.operation.className ++ " " ++ fmt c.b ++ " = " ++ fmt c.result

/-- `app/calculator_memento.py`: the memento storing one result value. -/
structure CalculatorMemento where
  _state : ℝ

/-- `CalculatorMemento.get_state`. -/
def CalculatorMemento.get_state (m : CalculatorMemento) : ℝ := m._state

/-- `app/history.py`: the caretaker with its two stacks.  Python `list.append`
adds at the end, so the top of each stack is the last element and the oldest
entry (`_history[0]`) is the first. -/
structure HistoryManager where
  _history : List CalculatorMemento
  _redo_stack : List CalculatorMemento

namespace HistoryManager

/-- `HistoryManager.save`: `self._history.append(memento)` then
`self._redo_stack.clear()`. -/
def save (h : HistoryManager) (memento : CalculatorMemento) : HistoryManager :=
  { _history := h._history ++ [memento], _redo_stack := [] }

/-- `HistoryManager.undo`: if fewer than 2 entries, return `None`; otherwise pop
the last entry onto the redo stack and return the new last entry
(`self._history[-1]`).  Returns the popped-result pair `(returned, new state)`. -/
def undo (h : HistoryManager) : Option CalculatorMemento × HistoryManager :=
  if h._history.length < 2 then (none, h)
  else
    match h._history.reverse with
    | [] => (none, h)
    | last_memento :: rest =>
        (rest.head?, { _history := rest.reverse, _redo_stack := h._redo_stack ++ [last_memento] })

/-- `HistoryManager.redo`: if the redo stack is empty, return `None`; otherwise
pop its last entry, append it back to `_history`, and return it. -/
def redo (h : HistoryManager) : Option CalculatorMemento × HistoryManager :=
  match h._redo_stack.reverse with
  | [] => (none, h)
  | memento_to_restore :: rest =>
      (some memento_to_restore,
       { _history := h._history ++ [memento_to_restore], _redo_stack := rest.reverse })

end HistoryManager

/-- The class-level (static) state of `app/calculator.py`'s `Calculator` class:
`_observers: List['Observer'] = []` is a *class attribute*, one single list
shared by every instance (`self._observers.append(...)` finds the class
attribute and mutates it in place).  Observers are identified by `Nat` ids;
their `update` behaviour is outside the core. -/
structure CalculatorClass where
  _observers : List Nat
deriving DecidableEq

/-- The per-instance state of a `Calculator`: `self._current_result`,
`self._history_manager`, and the `last_calculation` slot (a class attribute
defaulting to `None`, but only ever assigned through `self.`, which creates an
instance attribute — so it behaves per instance). -/
structure Calculator where
  _current_result : ℝ
  _history_manager : HistoryManager
  last_calculation : Option Calculation

namespace Calculator

/-- `Calculator.create_memento`: `CalculatorMemento(self._current_result)`. -/
def create_memento (c : Calculator) : CalculatorMemento :=
  { _state := c._current_result }

/-- `Calculator.__init__`: `_current_result = 0.0`, a fresh `HistoryManager`,
then `self._history_manager.save(self.create_memento())`.  The class attribute
`_observers` is not touched by `__init__`. -/
def init : Calculator :=
  let c : Calculator :=
    { _current_result := 0, _history_manager := { _history := [], _redo_stack := [] },
      last_calculation := none }
  { c with _history_manager := c._history_manager.save c.create_memento }

/-- `Calculator.__init__` seen together with the class-level state: constructing
an instance touches only instance fields, so the shared observer list comes
through unchanged. -/
def initWithClass (cls : CalculatorClass) : Calculator × CalculatorClass :=
  (init, cls)

/-- `Calculator.register_observer`: `self._observers.append(observer)` — appends
to the shared class-level list, whichever instance `self` is. -/
def register_observer (cls : CalculatorClass) (_self : Calculator) (observer : Nat) :
    CalculatorClass :=
  { _observers := cls._observers ++ [observer] }

/-- `Calculator._notify_observers`: calls `observer.update(self)` on each entry
of the shared list, in list order; returns the notification order. -/
def _notify_observers (cls : CalculatorClass) (_self : Calculator) : List Nat :=
  cls._observers

/-- `Calculator.restore_from_memento`: set `_current_result` to the memento's
state, or to `0.0` when the memento is `None`. -/
def restore_from_memento (c : Calculator) (memento : Option CalculatorMemento) : Calculator :=
  match memento with
  | some m => { c with _current_result := m.get_state }
  | none => { c with _current_result := 0 }

/-- `Calculator.undo`: `memento = self._history_manager.undo()` then
`self.restore_from_memento(memento)`. -/
def undo (c : Calculator) : Calculator :=
  let p := c._history_manager.undo
  restore_from_memento { c with _history_manager := p.2 } p.1

/-- `Calculator.redo`: `memento = self._history_manager.redo()`; restore only
when a memento came back, else just print "Nothing to redo.". -/
def redo (c : Calculator) : Calculator :=
  let p := c._history_manager.redo
  match p.1 with
  | some m => restore_from_memento { c with _history_manager := p.2 } (some m)
  | none => { c with _history_manager := p.2 }

/-- `Calculator.execute_operation`, translated line by line: resolve the
operation (may raise), run `calculate` (may raise), and only then assign
`self._current_result`, save a memento, build the `Calculation`, store it in
`last_calculation`, and notify observers.  The result is
`(return value or propagated exception, instance state, notified observers)`;
on an exception the state at the raise point is the entry state, because the
source performs no mutation before `operation.calculate(a, b)` returns. -/
noncomputable def execute_operation (cls : CalculatorClass) (c : Calculator)
    (operation_name : String) (a b : ℝ) :
    Except PyErr Calculation × Calculator × List Nat :=
  match OperationFactory.create_operation operation_name with
  | .error e => (.error e, c, [])
  | .ok operation =>
    match operation.calculate a b with
    | .error e => (.error e, c, [])
    | .ok r =>
      let c1 := { c with _current_result := r }
      let c2 := { c1 with _history_manager := c1._history_manager.save c1.create_memento }
      let calculation : Calculation := { a := a, b := b, operation := operation, result := c2._current_result }
      let c3 := { c2 with last_calculation := some calculation }
      (.ok calculation, c3, _notify_observers cls c3)

end Calculator

/-- The genesis memento: the snapshot of the initial result `0.0`, saved by
`Calculator.__init__`. -/
def genesisMemento : CalculatorMemento := { _state := 0 }

/-- History-manager states reachable from the post-construction state (the one
`Calculator.__init__` leaves behind) by any sequence of `save`, `undo`, `redo`. -/
inductive HMReach : HistoryManager → Prop where
  | genesis : HMReach { _history := [genesisMemento], _redo_stack := [] }
  | save : ∀ h m, HMReach h → HMReach (h.save m)
  | undo : ∀ h, HMReach h → HMReach (h.undo).2
  | redo : ∀ h, HMReach h → HMReach (h.redo).2

/-- Calculator states reachable from a freshly constructed calculator by any
sequence of `execute_operation` (any name and operands, successful or not),
`undo`, and `redo`. -/
inductive CalcReach : Calculator → Prop where
  | init : CalcReach Calculator.init
  | execute : ∀ cls c name a b, CalcReach c →
      CalcReach (Calculator.execute_operation cls c name a b).2.1
  | undo : ∀ c, CalcReach c → CalcReach c.undo
  | redo : ∀ c, CalcReach c → CalcReach c.redo

/-- The lifecycle invariant of a calculator: the undo stack is nonempty with the
genesis memento at the bottom, and the top of the undo stack is a snapshot of
the current result. -/
def CalcInv (c : Calculator) : Prop :=
  (∃ rest, c._history_manager._history = genesisMemento :: rest) ∧
  c._history_manager._history.getLast? = some { _state := c._current_result }

/-- Scenario state: a fresh calculator after `execute_operation('add', 10, 5)`
(result 15), run with an empty shared observer list. -/
noncomputable def calcStep1 : Calculator :=
  (Calculator.execute_operation ⟨[]⟩ Calculator.init "add" 10 5).2.1

/-- Scenario state: `calcStep1` after `execute_operation('add', 15, 5)` (result 20). -/
noncomputable def calcStep2 : Calculator :=
  (Calculator.execute_operation ⟨[]⟩ calcStep1 "add" 15 5).2.1

/-- Scenario state: `calcStep2` after `undo()` (back to 15, redo entry for 20 pending). -/
noncomputable def calcStep3 : Calculator := calcStep2.undo

/-- Scenario state: `calcStep3` after `execute_operation('multiply', 10, 2)`
(result 20 again; the save discards the pending redo entry). -/
noncomputable def calcStep4 : Calculator :=
  (Calculator.execute_operation ⟨[]⟩ calcStep3 "multiply" 10 2).2.1

/-- The undo stack of every reachable history-manager state is nonempty with the
genesis memento at the bottom. -/
theorem HMReach.bottom_genesis {h : HistoryManager} (hr : HMReach h) :
    ∃ rest, h._history = genesisMemento :: rest := by
  induction hr with
  | genesis => exact ⟨[], rfl⟩
  | save h m _ ih =>
      obtain ⟨rest, hrest⟩ := ih
      exact ⟨rest ++ [m], by simp [HistoryManager.save, hrest]⟩
  | undo h _ ih =>
      obtain ⟨rest, hrest⟩ := ih
      by_cases hlen : h._history.length < 2
      · simpa [HistoryManager.undo, hlen] using ⟨rest, hrest⟩
      · have hne : rest ≠ [] := by
          intro hnil
          rw [hrest, hnil] at hlen
          simp at hlen
        obtain ⟨t, u, hu⟩ : ∃ t u, rest.reverse = t :: u := by
          rcases hrev : rest.reverse with _ | ⟨t, u⟩
          · exact absurd (by simpa using congrArg List.reverse hrev) hne
          · exact ⟨t, u, rfl⟩
        have hrev : h._history.reverse = t :: (u ++ [genesisMemento]) := by
          rw [hrest, List.reverse_cons, hu]
          simp
        simp only [HistoryManager.undo, hlen, if_false, hrev]
        exact ⟨u.reverse, by simp⟩
  | redo h _ ih =>
      obtain ⟨rest, hrest⟩ := ih
      rcases hrev : h._redo_stack.reverse with _ | ⟨m, rest'⟩
      · simpa [HistoryManager.redo, hrev] using ⟨rest, hrest⟩
      · simp only [HistoryManager.redo, hrev]
        exact ⟨rest ++ [m], by simp [hrest]⟩

/-- `undo` on a history with fewer than two entries returns `None` and changes
nothing. -/
theorem hm_undo_short {h : HistoryManager} (hlen : h._history.length < 2) :
    h.undo = (none, h) := by
  simp [HistoryManager.undo, hlen]

/-- `undo` on a history whose reversal is `t :: u` (so `t` is the top) pops `t`
onto the redo stack and returns the new top `u.head?`. -/
theorem hm_undo_long {h : HistoryManager} {t : CalculatorMemento} {u : List CalculatorMemento}
    (hlen : ¬ h._history.length < 2) (hrev : h._history.reverse = t :: u) :
    h.undo = (u.head?, { _history := u.reverse, _redo_stack := h._redo_stack ++ [t] }) := by
  simp [HistoryManager.undo, hlen, hrev]

/-- `redo` on an empty redo stack returns `None` and changes nothing. -/
theorem hm_redo_nil {h : HistoryManager} (hnil : h._redo_stack = []) :
    h.redo = (none, h) := by
  simp [HistoryManager.redo, hnil]

/-- `redo` on a nonempty redo stack pops its last entry `m`, appends it to the
history, and returns it. -/
theorem hm_redo_cons {h : HistoryManager} {m : CalculatorMemento} {rest : List CalculatorMemento}
    (hrev : h._redo_stack.reverse = m :: rest) :
    h.redo = (some m, { _history := h._history ++ [m], _redo_stack := rest.reverse }) := by
  simp [HistoryManager.redo, hrev]

/-- Unfolding `Calculator.undo` to its two phases. -/
theorem calc_undo_eq (c : Calculator) :
    c.undo = Calculator.restore_from_memento
      { c with _history_manager := (c._history_manager.undo).2 } (c._history_manager.undo).1 :=
  rfl

/-- `execute_operation` with an unknown operation name propagates the lookup
error and leaves the instance untouched, notifying nobody. -/
theorem execute_err_lookup {cls : CalculatorClass} {c : Calculator} {name : String} {a b : ℝ}
    {e : PyErr} (hop : OperationFactory.create_operation name = .error e) :
    Calculator.execute_operation cls c name a b = (.error e, c, []) := by
  simp [Calculator.execute_operation, hop]

/-- `execute_operation` whose `calculate` call fails propagates that error and
leaves the instance untouched, notifying nobody. -/
theorem execute_err_calc {cls : CalculatorClass} {c : Calculator} {name : String} {a b : ℝ}
    {op : Operation} {e : PyErr} (hop : OperationFactory.create_operation name = .ok op)
    (hcalc : op.calculate a b = .error e) :
    Calculator.execute_operation cls c name a b = (.error e, c, []) := by
  simp [Calculator.execute_operation, hop, hcalc]

/-- Successful `execute_operation`: the new result is the calculated value, a
snapshot of it is saved, the calculation is recorded, and the shared observer
list is notified in order. -/
theorem execute_ok {cls : CalculatorClass} {c : Calculator} {name : String} {a b : ℝ}
    {op : Operation} {r : ℝ} (hop : OperationFactory.create_operation name = .ok op)
    (hcalc : op.calculate a b = .ok r) :
    Calculator.execute_operation cls c name a b =
      (.ok { a := a, b := b, operation := op, result := r },
       { _current_result := r,
         _history_manager := c._history_manager.save { _state := r },
         last_calculation := some { a := a, b := b, operation := op, result := r } },
       cls._observers) := by
  simp [Calculator.execute_operation, hop, hcalc, Calculator.create_memento,
    Calculator._notify_observers]

/-- Every reachable calculator state satisfies the lifecycle invariant: genesis
at the bottom of a nonempty undo stack, and the top of the undo stack is a
snapshot of the current result. -/
theorem CalcReach.inv {c : Calculator} (hr : CalcReach c) : CalcInv c := by
  induction hr with
  | init => exact ⟨⟨[], rfl⟩, rfl⟩
  | execute cls c name a b _ ih =>
      obtain ⟨⟨rest, hrest⟩, hlast⟩ := ih
      rcases hop : OperationFactory.create_operation name with e | op
      · simpa [execute_err_lookup hop] using ⟨⟨rest, hrest⟩, hlast⟩
      · rcases hcalc : op.calculate a b with e | r
        · simpa [execute_err_calc hop hcalc] using ⟨⟨rest, hrest⟩, hlast⟩
        · rw [execute_ok hop hcalc]
          refine ⟨⟨rest ++ [{ _state := r }], ?_⟩, ?_⟩
          · simp [HistoryManager.save, hrest]
          · simp [HistoryManager.save]
  | undo c _ ih =>
      obtain ⟨⟨rest, hrest⟩, hlast⟩ := ih
      by_cases hlen : c._history_manager._history.length < 2
      · have hnil : rest = [] := by
          rcases rest with _ | ⟨x, xs⟩
          · rfl
          · rw [hrest] at hlen
            simp only [List.length_cons] at hlen
            omega
        subst hnil
        rw [calc_undo_eq, hm_undo_short hlen]
        refine ⟨⟨[], by simpa [Calculator.restore_from_memento] using hrest⟩, ?_⟩
        simp [Calculator.restore_from_memento, hrest, genesisMemento]
      · have hne : rest ≠ [] := by
          intro hnil
          rw [hrest, hnil] at hlen
          simp at hlen
        obtain ⟨t, u, hu⟩ : ∃ t u, rest.reverse = t :: u := by
          rcases hrev : rest.reverse with _ | ⟨t, u⟩
          · exact absurd (by simpa using congrArg List.reverse hrev) hne
          · exact ⟨t, u, rfl⟩
        have hrev : c._history_manager._history.reverse = t :: (u ++ [genesisMemento]) := by
          rw [hrest, List.reverse_cons, hu]
          simp
        rw [calc_undo_eq, hm_undo_long hlen hrev]
        obtain ⟨m, hm⟩ : ∃ m, (u ++ [genesisMemento]).head? = some m := by
          rcases u with _ | ⟨v, w⟩ <;> exact ⟨_, rfl⟩
        rw [hm]
        refine ⟨⟨u.reverse, by simp [Calculator.restore_from_memento]⟩, ?_⟩
        simp only [Calculator.restore_from_memento, CalculatorMemento.get_state]
        rw [List.getLast?_reverse, hm]
  | redo c _ ih =>
      obtain ⟨⟨rest, hrest⟩, hlast⟩ := ih
      rcases hrev : c._history_manager._redo_stack.reverse with _ | ⟨m, rest'⟩
      · have hnil : c._history_manager._redo_stack = [] := by
          simpa using congrArg List.reverse hrev
        simpa [Calculator.redo, hm_redo_nil hnil] using ⟨⟨rest, hrest⟩, hlast⟩
      · simp only [Calculator.redo, hm_redo_cons hrev]
        refine ⟨⟨rest ++ [m], ?_⟩, ?_⟩
        · simp [Calculator.restore_from_memento, hrest]
        · simp [Calculator.restore_from_memento, CalculatorMemento.get_state]

/-- Evaluating scenario step 1: `add 10 5` from a fresh calculator. -/
theorem eval_calcStep1 : calcStep1 =
    { _current_result := 15,
      _history_manager := { _history := [genesisMemento, { _state := 15 }], _redo_stack := [] },
      last_calculation := some { a := 10, b := 5, operation := .Add, result := 15 } } := by
  have hop : OperationFactory.create_operation "add" = .ok .Add := rfl
  have hcalc : Operation.calculate .Add (10 : ℝ) 5 = .ok 15 := by
    simp only [Operation.calculate]
    norm_num
  rw [calcStep1, execute_ok hop hcalc]
  rfl

/-- Evaluating scenario step 2: `add 15 5` on top of step 1. -/
theorem eval_calcStep2 : calcStep2 =
    { _current_result := 20,
      _history_manager :=
        { _history := [genesisMemento, { _state := 15 }, { _state := 20 }], _redo_stack := [] },
      last_calculation := some { a := 15, b := 5, operation := .Add, result := 20 } } := by
  have hop : OperationFactory.create_operation "add" = .ok .Add := rfl
  have hcalc : Operation.calculate .Add (15 : ℝ) 5 = .ok 20 := by
    simp only [Operation.calculate]
    norm_num
  rw [calcStep2, eval_calcStep1, execute_ok hop hcalc]
  rfl

/-- Evaluating scenario step 3: `undo()` on top of step 2. -/
theorem eval_calcStep3 : calcStep3 =
    { _current_result := 15,
      _history_manager :=
        { _history := [genesisMemento, { _state := 15 }], _redo_stack := [{ _state := 20 }] },
      last_calculation := some { a := 15, b := 5, operation := .Add, result := 20 } } := by
  rw [calcStep3, eval_calcStep2, calc_undo_eq,
    @hm_undo_long
      { _history := [genesisMemento, { _state := 15 }, { _state := 20 }], _redo_stack := [] }
      { _state := 20 } [{ _state := 15 }, genesisMemento] (by decide) rfl]
  rfl

/-- Evaluating scenario step 4: `multiply 10 2` on top of step 3; the save
clears the redo stack. -/
theorem eval_calcStep4 : calcStep4 =
    { _current_result := 20,
      _history_manager :=
        { _history := [genesisMemento, { _state := 15 }, { _state := 20 }], _redo_stack := [] },
      last_calculation := some { a := 10, b := 2, operation := .Multiply, result := 20 } } := by
  have hop : OperationFactory.create_operation "multiply" = .ok .Multiply := rfl
  have hcalc : Operation.calculate .Multiply (10 : ℝ) 2 = .ok 20 := by
    simp only [Operation.calculate]
    norm_num
  rw [calcStep4, eval_calcStep3, execute_ok hop hcalc]
  rfl

/-- C1: if `execute_operation` fails (unknown operation name or domain
violation), then `_current_result`, the History Manager's undo and redo stacks,
and the `last_calculation` slot are exactly as they were before the call, and no
observer is notified (no snapshot is saved, since the stacks are unchanged). -/
theorem claim_C1_execute_failure_frame (cls : CalculatorClass) (c : Calculator)
    (name : String) (a b : ℝ) (e : PyErr) (c' : Calculator) (notified : List Nat)
    (hfail : Calculator.execute_operation cls c name a b = (.error e, c', notified)) :
    c'._current_result = c._current_result ∧
    c'._history_manager._history = c._history_manager._history ∧
    c'._history_manager._redo_stack = c._history_manager._redo_stack ∧
    c'.last_calculation = c.last_calculation ∧ notified = [] := by
  rcases hop : OperationFactory.create_operation name with e' | op
  · rw [execute_err_lookup hop] at hfail
    have hc : c = c' := congrArg (fun p => p.2.1) hfail
    have hn : ([] : List Nat) = notified := congrArg (fun p => p.2.2) hfail
    simp [← hc, ← hn]
  · rcases hcalc : op.calculate a b with e'' | r
    · rw [execute_err_calc hop hcalc] at hfail
      have hc : c = c' := congrArg (fun p => p.2.1) hfail
      have hn : ([] : List Nat) = notified := congrArg (fun p => p.2.2) hfail
      simp [← hc, ← hn]
    · rw [execute_ok hop hcalc] at hfail
      exact absurd (congrArg (fun p => p.1) hfail) (by simp)

/-- C1 witness: `divide 10 0` on a fresh calculator fails and changes nothing. -/
theorem claim_C1_execute_failure_frame_witness :
    Calculator.init._current_result = Calculator.init._current_result ∧
    Calculator.init._history_manager._history = Calculator.init._history_manager._history ∧
    Calculator.init._history_manager._redo_stack = Calculator.init._history_manager._redo_stack ∧
    Calculator.init.last_calculation = Calculator.init.last_calculation ∧
    ([] : List Nat) = [] :=
  claim_C1_execute_failure_frame ⟨[]⟩ Calculator.init "divide" 10 0
    (.valueError "Cannot divide by zero.") Calculator.init []
    (by
      have hop : OperationFactory.create_operation "divide" = .ok .Divide := rfl
      have hcalc : Operation.calculate .Divide 10 0 =
          .error (.valueError "Cannot divide by zero.") := by
        simp [Operation.calculate]
      rw [execute_err_calc hop hcalc])

/-- C2 fails as stated: at `a = 1` the `divide` failure is a `ValueError` while
the `int_divide` failure is a `ZeroDivisionError` — two different exception
kinds, not one kind distinguished only by message. -/
theorem claim_C2_counterexample :
    Operation.calculate .Divide 1 0 = .error (.valueError "Cannot divide by zero.") ∧
    Operation.calculate .IntegerDivide 1 0 =
      .error (.zeroDivisionError "float floor division by zero") ∧
    PyErr.kindName (.valueError "Cannot divide by zero.") ≠
      PyErr.kindName (.zeroDivisionError "float floor division by zero") := by
  refine ⟨?_, ?_, by decide⟩
  · simp [Operation.calculate]
  · simp [Operation.calculate, pyFloorDiv]

/-- C2 amended: for every float `a`, all four zero-denominator calls fail, but
with two different kinds: `divide` and `modulus` raise `ValueError` (the code's
`OperationError` role), while `int_divide` and `percentage` hit Python's own
`ZeroDivisionError` because their `calculate` methods have no zero check. -/
theorem claim_C2_zero_denominator_failures (a : ℝ) :
    Operation.calculate .Divide a 0 = .error (.valueError "Cannot divide by zero.") ∧
    Operation.calculate .Modulus a 0 =
      .error (.valueError "Cannot perform modulus with zero.") ∧
    Operation.calculate .IntegerDivide a 0 =
      .error (.zeroDivisionError "float floor division by zero") ∧
    Operation.calculate .Percentage a 0 =
      .error (.zeroDivisionError "float division by zero") := by
  refine ⟨?_, ?_, ?_, ?_⟩ <;> simp [Operation.calculate, pyFloorDiv, pyDiv, Except.map]

/-- C3: on every reachable History-Manager state, `save` appends the snapshot to
the undo stack and leaves the redo stack empty; consequently, in the scenario
`add 10 5`, `add 15 5`, `undo`, `multiply 10 2`, a following `redo()` returns
`None` (the redo entry discarded by the last save) and changes nothing. -/
theorem claim_C3_save_clears_redo :
    (∀ (h : HistoryManager) (m : CalculatorMemento), HMReach h →
      (h.save m)._history = h._history ++ [m] ∧ (h.save m)._redo_stack = []) ∧
    ((calcStep4._history_manager.redo).1 = none ∧ calcStep4.redo = calcStep4) := by
  refine ⟨fun h m _ => ⟨rfl, rfl⟩, ?_, ?_⟩
  · rw [eval_calcStep4, hm_redo_nil rfl]
  · rw [eval_calcStep4, Calculator.redo, hm_redo_nil rfl]

/-- C3 witness: instantiating the reachable-state clause at the genesis state. -/
theorem claim_C3_save_clears_redo_witness :
    ((HistoryManager.mk [genesisMemento] []).save { _state := 5 })._history
        = [genesisMemento] ++ [{ _state := 5 }] ∧
    ((HistoryManager.mk [genesisMemento] []).save { _state := 5 })._redo_stack = [] :=
  claim_C3_save_clears_redo.1 (HistoryManager.mk [genesisMemento] [])
    { _state := 5 } HMReach.genesis

/-- Evaluating `undo()` after scenario step 1: result back to 0, the snapshot of
15 pending on the redo stack. -/
theorem eval_calcStep1_undo : calcStep1.undo =
    { _current_result := 0,
      _history_manager := { _history := [genesisMemento], _redo_stack := [{ _state := 15 }] },
      last_calculation := some { a := 10, b := 5, operation := .Add, result := 15 } } := by
  rw [eval_calcStep1, calc_undo_eq,
    @hm_undo_long { _history := [genesisMemento, { _state := 15 }], _redo_stack := [] }
      { _state := 15 } [genesisMemento] (by decide) rfl]
  rfl

/-- Evaluating `redo()` after that `undo()`: result 15 restored. -/
theorem eval_calcStep1_undo_redo : calcStep1.undo.redo =
    { _current_result := 15,
      _history_manager :=
        { _history := [genesisMemento, { _state := 15 }], _redo_stack := [] },
      last_calculation := some { a := 10, b := 5, operation := .Add, result := 15 } } := by
  rw [eval_calcStep1_undo, Calculator.redo,
    @hm_redo_cons { _history := [genesisMemento], _redo_stack := [{ _state := 15 }] }
      { _state := 15 } [] rfl]
  rfl

/-- C4: on a fresh calculator (result 0.0), `execute('add', 10, 5)` sets the
result to 15, `undo()` restores the pre-call value 0.0, and `redo()` restores
15 again. -/
theorem claim_C4_undo_redo_round_trip :
    Calculator.init._current_result = 0 ∧
    calcStep1._current_result = 15 ∧
    calcStep1.undo._current_result = 0 ∧
    calcStep1.undo.redo._current_result = 15 := by
  refine ⟨rfl, ?_, ?_, ?_⟩
  · rw [eval_calcStep1]
  · rw [eval_calcStep1_undo]
  · rw [eval_calcStep1_undo_redo]

/-- C5: the undo stack always contains at least one element, with the genesis
snapshot (value 0.0, saved at construction) at the bottom: no sequence of
`save`, `undo`, `redo` removes it, and the same holds along any calculator
lifetime. -/
theorem claim_C5_genesis_never_removed :
    (∀ h : HistoryManager, HMReach h →
      h._history ≠ [] ∧ h._history.head? = some genesisMemento) ∧
    (∀ c : Calculator, CalcReach c →
      c._history_manager._history ≠ [] ∧
      c._history_manager._history.head? = some genesisMemento) := by
  constructor
  · intro h hr
    obtain ⟨rest, hrest⟩ := hr.bottom_genesis
    rw [hrest]
    exact ⟨by simp, rfl⟩
  · intro c hr
    obtain ⟨⟨rest, hrest⟩, -⟩ := hr.inv
    rw [hrest]
    exact ⟨by simp, rfl⟩

/-- C5 witness: the invariant at the genesis state itself. -/
theorem claim_C5_genesis_never_removed_witness :
    (HistoryManager.mk [genesisMemento] [])._history ≠ [] ∧
    (HistoryManager.mk [genesisMemento] [])._history.head? = some genesisMemento :=
  claim_C5_genesis_never_removed.1 (HistoryManager.mk [genesisMemento] []) HMReach.genesis

/-- C6: whenever a reachable calculator's undo stack holds only the genesis
snapshot, the History Manager's `undo()` returns `None` and the calculator's
`undo()` leaves `current_result` unchanged (it is already the genesis value 0). -/
theorem claim_C6_undo_at_genesis (c : Calculator) (hr : CalcReach c)
    (hlen : c._history_manager._history.length = 1) :
    (c._history_manager.undo).1 = none ∧
    c.undo._current_result = c._current_result := by
  obtain ⟨⟨rest, hrest⟩, hlast⟩ := hr.inv
  have hnil : rest = [] := by
    rw [hrest] at hlen
    simpa using hlen
  subst hnil
  have h0 : c._current_result = 0 := by
    rw [hrest] at hlast
    simp only [List.getLast?_singleton, Option.some.injEq, genesisMemento] at hlast
    exact congrArg CalculatorMemento._state hlast.symm
  have hshort : c._history_manager._history.length < 2 := by
    rw [hlen]
    omega
  refine ⟨by rw [hm_undo_short hshort], ?_⟩
  rw [calc_undo_eq, hm_undo_short hshort]
  simp [Calculator.restore_from_memento, h0]

/-- C6 witness: a fresh calculator has a singleton undo stack; `undo()` returns
`None` and keeps the result at 0. -/
theorem claim_C6_undo_at_genesis_witness :
    Calculator.init._history_manager._history.length = 1 ∧
    ((Calculator.init._history_manager.undo).1 = none ∧
      Calculator.init.undo._current_result = Calculator.init._current_result) :=
  ⟨rfl, claim_C6_undo_at_genesis Calculator.init CalcReach.init rfl⟩

/-- C7 fails as stated: `Power.calculate(0, -1)` is `0.0 ** -1.0`, on which
Python raises `ZeroDivisionError`, so `Power` does fail on a finite input. -/
theorem claim_C7_counterexample :
    Operation.calculate .Power 0 (-1) =
      .error (.zeroDivisionError "0.0 cannot be raised to a negative power") := by
  simp [Operation.calculate, pyPow]

/-- C7 amended: `Add`, `Subtract`, `Multiply`, and `AbsoluteDifference` never
fail on any finite inputs; `Power` fails exactly when `a = 0` and `b < 0`
(Python's `0.0 ** negative` raises `ZeroDivisionError`) and succeeds otherwise. -/
theorem claim_C7_total_operations (a b : ℝ) :
    Operation.calculate .Add a b = .ok (a + b) ∧
    Operation.calculate .Subtract a b = .ok (a - b) ∧
    Operation.calculate .Multiply a b = .ok (a * b) ∧
    Operation.calculate .AbsoluteDifference a b = .ok |a - b| ∧
    ((∃ r, Operation.calculate .Power a b = .ok r) ↔ ¬(a = 0 ∧ b < 0)) := by
  refine ⟨rfl, rfl, rfl, rfl, ?_⟩
  by_cases h : a = 0 ∧ b < 0
  · simp [Operation.calculate, pyPow, h]
  · simp [Operation.calculate, pyPow, h]

/-- Python's `b % 2 == 0` on floats holds exactly when `b` is an even integer. -/
theorem fmod_two_eq_zero_iff (b : ℝ) : fmod b 2 = 0 ↔ ∃ k : ℤ, b = 2 * k := by
  unfold fmod
  constructor
  · intro h
    exact ⟨⌊b / 2⌋, by linarith⟩
  · rintro ⟨k, rfl⟩
    have h2 : (2 : ℝ) * k / 2 = (k : ℝ) := by
      field_simp
    rw [h2, Int.floor_intCast]
    ring

/-- C8 fails as stated: `root(2, 0)` is not an even root of a negative number
(`a = 2 ≥ 0`), yet the code raises `ZeroDivisionError` while computing `1/b`,
instead of succeeding. -/
theorem claim_C8_counterexample :
    Operation.calculate .Root 2 0 =
      .error (.zeroDivisionError "float division by zero") := by
  have h1 : ¬((2 : ℝ) < 0 ∧ fmod 0 2 = 0) := by
    rintro ⟨h, -⟩
    norm_num at h
  rw [show Operation.calculate .Root 2 0 = (if (2 : ℝ) < 0 ∧ fmod (0 : ℝ) 2 = 0 then
        .error (.valueError "Cannot take an even root of a negative number.")
      else (pyDiv 1 0).bind (fun e => pyPow 2 e)) from rfl,
    if_neg h1,
    show pyDiv (1 : ℝ) 0 = .error (.zeroDivisionError "float division by zero") from by
      simp [pyDiv]]
  rfl

/-- C8 amended: `Root.calculate a b` succeeds exactly when none of these hold:
`a < 0` with `b` an even integer (`ValueError`), `b = 0` (`ZeroDivisionError`
from `1/b`), or `a = 0` with `b < 0` (`ZeroDivisionError` from `0.0 ** negative`);
whenever `a ≥ 0`, `b ≠ 0`, and not (`a = 0` and `b < 0`), it returns `a^(1/b)`. -/
theorem claim_C8_root_domain (a b : ℝ) :
    ((∃ r, Operation.calculate .Root a b = .ok r) ↔
      ¬((a < 0 ∧ ∃ k : ℤ, b = 2 * k) ∨ b = 0 ∨ (a = 0 ∧ b < 0))) ∧
    (0 ≤ a → b ≠ 0 → ¬(a = 0 ∧ b < 0) →
      Operation.calculate .Root a b = .ok (a ^ (1 / b))) := by
  have hroot : Operation.calculate .Root a b =
      (if a < 0 ∧ fmod b 2 = 0 then
        .error (.valueError "Cannot take an even root of a negative number.")
      else (pyDiv 1 b).bind (fun e => pyPow a e)) := rfl
  constructor
  · by_cases h1 : a < 0 ∧ fmod b 2 = 0
    · rw [hroot, if_pos h1]
      constructor
      · rintro ⟨r, hr⟩
        cases hr
      · intro hnot
        exact absurd (Or.inl ⟨h1.1, (fmod_two_eq_zero_iff b).mp h1.2⟩) hnot
    · rw [hroot, if_neg h1]
      by_cases h2 : b = 0
      · subst h2
        rw [show pyDiv 1 0 = .error (.zeroDivisionError "float division by zero") from by
            simp [pyDiv]]
        constructor
        · rintro ⟨r, hr⟩
          cases hr
        · intro hnot
          exact absurd (Or.inr (Or.inl rfl)) hnot
      · rw [show pyDiv 1 b = .ok (1 / b) from by simp [pyDiv, h2]]
        simp only [Except.bind]
        by_cases h3 : a = 0 ∧ b < 0
        · have h3' : a = 0 ∧ 1 / b < 0 := ⟨h3.1, one_div_neg.mpr h3.2⟩
          rw [show pyPow a (1 / b) = .error (.zeroDivisionError
              "0.0 cannot be raised to a negative power") from by
            unfold pyPow
            rw [if_pos h3']]
          constructor
          · rintro ⟨r, hr⟩
            cases hr
          · intro hnot
            exact absurd (Or.inr (Or.inr h3)) hnot
        · have h3' : ¬(a = 0 ∧ 1 / b < 0) := by
            rintro ⟨ha0, hinv⟩
            exact h3 ⟨ha0, one_div_neg.mp hinv⟩
          rw [show pyPow a (1 / b) = .ok (a ^ (1 / b)) from by
            unfold pyPow
            rw [if_neg h3']]
          constructor
          · rintro - (⟨hneg, hk⟩ | h2' | h3'')
            · exact h1 ⟨hneg, (fmod_two_eq_zero_iff b).mpr hk⟩
            · exact h2 h2'
            · exact h3 h3''
          · rintro -
            exact ⟨a ^ (1 / b), rfl⟩
  · intro ha hb hab
    have h1 : ¬(a < 0 ∧ fmod b 2 = 0) := by
      rintro ⟨hneg, -⟩
      exact absurd ha (not_le.mpr hneg)
    rw [hroot, if_neg h1, show pyDiv 1 b = .ok (1 / b) from by simp [pyDiv, hb]]
    simp only [Except.bind]
    have h3' : ¬(a = 0 ∧ 1 / b < 0) := by
      rintro ⟨ha0, hinv⟩
      exact hab ⟨ha0, one_div_neg.mp hinv⟩
    rw [show pyPow a (1 / b) = .ok (a ^ (1 / b)) from by
      unfold pyPow
      rw [if_neg h3']]

/-- C8 witness: `root(16, 2)` succeeds with value `16^(1/2)`. -/
theorem claim_C8_root_domain_witness :
    (0 : ℝ) ≤ 16 ∧ (2 : ℝ) ≠ 0 ∧ ¬((16 : ℝ) = 0 ∧ (2 : ℝ) < 0) ∧
    Operation.calculate .Root 16 2 = .ok ((16 : ℝ) ^ ((1 : ℝ) / 2)) :=
  ⟨by norm_num, by norm_num, by norm_num,
    (claim_C8_root_domain 16 2).2 (by norm_num) (by norm_num) (by norm_num)⟩

/-- C9 fails as stated: the calculation produced by a successful
`execute_operation('int_divide', 10, 3)` renders with the lowercased *class*
name `"integerdivide"`, not the registry name `"int_divide"`. -/
theorem claim_C9_counterexample :
    ∃ (calcn : Calculation) (rest : Calculator × List Nat),
      Calculator.execute_operation ⟨[]⟩ Calculator.init "int_divide" 10 3
          = (.ok calcn, rest) ∧
      calcn.toStr (fun _ => "#") = "# integerdivide # = #" ∧
      calcn.toStr (fun _ => "#") ≠ "# int_divide # = #" := by
  have hop : OperationFactory.create_operation "int_divide" = .ok .IntegerDivide := rfl
  have hcalc : Operation.calculate .IntegerDivide 10 3 = .ok ((⌊(10 : ℝ) / 3⌋ : ℤ) : ℝ) := by
    rw [show Operation.calculate .IntegerDivide 10 3 = pyFloorDiv 10 3 from rfl]
    unfold pyFloorDiv
    rw [if_neg (by norm_num)]
  refine ⟨{ a := 10, b := 3, operation := .IntegerDivide, result := ((⌊(10 : ℝ) / 3⌋ : ℤ) : ℝ) },
    ({ _current_result := ((⌊(10 : ℝ) / 3⌋ : ℤ) : ℝ),
       _history_manager :=
         Calculator.init._history_manager.save { _state := ((⌊(10 : ℝ) / 3⌋ : ℤ) : ℝ) },
       last_calculation :=
         some { a := 10, b := 3, operation := .IntegerDivide,
                result := ((⌊(10 : ℝ) / 3⌋ : ℤ) : ℝ) } }, []), ?_, ?_, ?_⟩
  · rw [execute_ok hop hcalc]
  · rfl
  · decide

/-- C9 amended: the rendering of every calculation produced by a successful
`execute_operation` is `"{a} {lowercased class name} {b} = {result}"`; the
lowercased class name coincides with the name the operation is registered under
for the seven single-word operations, but differs for `int_divide`
(`"integerdivide"`), `percent` (`"percentage"`), and `abs_diff`
(`"absolutedifference"`). -/
theorem claim_C9_rendering :
    (∀ (cls : CalculatorClass) (c : Calculator) (name : String) (a b : ℝ)
        (calcn : Calculation) (rest : Calculator × List Nat) (fmt : ℝ → String),
      Calculator.execute_operation cls c name a b = (.ok calcn, rest) →
      calcn.a = a ∧ calcn.b = b ∧
        calcn.toStr fmt = fmt a ++ " " ++ pyLower calcn.operation.className ++ " " ++
          fmt b ++ " = " ++ fmt calcn.result) ∧
    (∀ p ∈ OperationFactory._operations,
      (pyLower p.2.className = p.1 ↔
        p.2 ≠ .IntegerDivide ∧ p.2 ≠ .Percentage ∧ p.2 ≠ .AbsoluteDifference)) := by
  constructor
  · intro cls c name a b calcn rest fmt hexec
    rcases hop : OperationFactory.create_operation name with e | op
    · rw [execute_err_lookup hop] at hexec
      exact absurd (congrArg (fun p => p.1) hexec) (by simp)
    · rcases hcalc : op.calculate a b with e | r
      · rw [execute_err_calc hop hcalc] at hexec
        exact absurd (congrArg (fun p => p.1) hexec) (by simp)
      · rw [execute_ok hop hcalc] at hexec
        have h2 : calcn = { a := a, b := b, operation := op, result := r } :=
          (Except.ok.inj (congrArg (fun p => p.1) hexec)).symm
        subst h2
        exact ⟨rfl, rfl, rfl⟩
  · intro p hp
    fin_cases hp <;> decide

/-- C9 witness: the calculation from `execute_operation('add', 1, 2)` rendered
with a constant formatter. -/
theorem claim_C9_rendering_witness :
    (Calculation.mk 1 2 .Add (1 + 2)).a = 1 ∧ (Calculation.mk 1 2 .Add (1 + 2)).b = 2 ∧
    (Calculation.mk 1 2 .Add (1 + 2)).toStr (fun _ => "#") =
      (fun _ : ℝ => "#") 1 ++ " " ++ pyLower (Operation.Add).className ++ " " ++
        (fun _ : ℝ => "#") 2 ++ " = " ++ (fun _ : ℝ => "#") ((Calculation.mk 1 2 .Add (1 + 2)).result) :=
  claim_C9_rendering.1 ⟨[]⟩ Calculator.init "add" 1 2 (Calculation.mk 1 2 .Add (1 + 2))
    (⟨1 + 2, Calculator.init._history_manager.save ⟨1 + 2⟩,
       some (Calculation.mk 1 2 .Add (1 + 2))⟩, [])
    (fun _ => "#")
    (by
      have hop : OperationFactory.create_operation "add" = .ok .Add := rfl
      have hcalc : Operation.calculate .Add (1 : ℝ) 2 = .ok (1 + 2) := rfl
      rw [execute_ok hop hcalc])

/-- C10: the observer list is one class-level list shared by all Calculator
instances: registering through any instance yields the same shared state, a
successful `execute_operation` on a *different* instance notifies exactly that
shared list (so it reaches the observer registered through the first instance),
and constructing a new Calculator leaves the registered observers unchanged. -/
theorem claim_C10_shared_observers (cls : CalculatorClass) (c1 c2 : Calculator)
    (o : Nat) (a b : ℝ) :
    Calculator.register_observer cls c1 o = Calculator.register_observer cls c2 o ∧
    (Calculator.execute_operation (Calculator.register_observer cls c1 o) c2 "add" a b).2.2
      = cls._observers ++ [o] ∧
    o ∈ (Calculator.execute_operation (Calculator.register_observer cls c1 o) c2 "add" a b).2.2 ∧
    (Calculator.initWithClass (Calculator.register_observer cls c1 o)).2
      = Calculator.register_observer cls c1 o := by
  have hop : OperationFactory.create_operation "add" = .ok .Add := rfl
  have hcalc : Operation.calculate .Add a b = .ok (a + b) := rfl
  refine ⟨rfl, ?_, ?_, rfl⟩
  · rw [execute_ok hop hcalc]
    rfl
  · rw [execute_ok hop hcalc]
    simp [Calculator.register_observer]
